import Mathlib

/-!
Verification development for the caption-job pipeline in
`services/caption_video_old_2.py`.

The Python module is shallowly embedded below.  Python strings are modelled
as Lean `String` / `List Char`, heterogeneous option values as `PyVal`,
Python dicts as association lists with last-binding lookup, exceptions as
`Except`, and the external collaborators (HTTP download, ffmpeg probe /
render, GCS upload) as an explicit environment of function-valued fields.
The module-level `FONT_PATHS` dictionary (built by scanning a fonts
directory at import time) is modelled as an explicit `fontPaths` parameter.
-/

/-- Heterogeneous Python value stored in an options mapping.
Note that in Python `bool` is a subclass of `int`, which matters for the
`isinstance(options.get('font_size'), int)` check in `validate_options`;
`pyIsInt` below reflects that. -/
inductive PyVal where
  | vStr : String → PyVal
  | vInt : Int → PyVal
  | vBool : Bool → PyVal
deriving DecidableEq, Repr

/-- A Python dict of option values, modelled as an association list whose
observable content is given by last-binding lookup (`dictGet?`), which
mirrors the overwrite-on-duplicate-key semantics of a Python dict
comprehension. -/
abbrev PyDict := List (String × PyVal)

/-- Lookup in a `PyDict`: the value of the LAST binding of the key, mirroring
Python dict insertion where later duplicate keys overwrite earlier ones. -/
def dictGet? (d : PyDict) (k : String) : Option PyVal :=
  (d.reverse.find? (fun p => p.1 == k)).map (·.2)

/-- Python `k in d`. -/
def dictContains (d : PyDict) (k : String) : Bool :=
  d.any (fun p => p.1 == k)

/-- Python `d.get(k, default)`. -/
def dictGetD (d : PyDict) (k : String) (v : PyVal) : PyVal :=
  (dictGet? d k).getD v

/-- Python `str()` of an option value. -/
def pyStr : PyVal → String
  | .vStr s => s
  | .vInt n => toString n
  | .vBool b => if b then "True" else "False"

/-- Python truthiness of an option value. -/
def pyTruthy : PyVal → Bool
  | .vStr s => s ≠ ""
  | .vInt n => n ≠ 0
  | .vBool b => b

/-- Python `isinstance(v, int)`: true for ints AND bools (bool ⊂ int). -/
def pyIsInt : PyVal → Bool
  | .vInt _ => true
  | .vBool _ => true
  | .vStr _ => false

/-- Numeric value of a Python int-like value (`True == 1`, `False == 0`). -/
def pyIntVal : PyVal → Int
  | .vInt n => n
  | .vBool b => if b then 1 else 0
  | .vStr _ => 0

/-- Python `v in listOfStrings` for a value of any type: only a string can
compare equal to a string, so non-string values are never members. -/
def pyValIsFontKey (v : PyVal) (names : List String) : Bool :=
  match v with
  | .vStr s => names.contains s
  | _ => false

/-- Python `options.get(k) in listOfStrings` where a missing key gives
`None`, which is never a member. -/
def pyInStrList (o : Option PyVal) (names : List String) : Bool :=
  match o with
  | some v => pyValIsFontKey v names
  | none => false

/-! ## Character-list utilities

`process_subtitle_content` works on the characters of its input; the
following model Python's `str.split(sep)`, `str.strip()`, `re.findall(r'\S+')`
and `'sep'.join(...)` over `List Char`. -/

/-- Python `s.split(sep)` for a one-character separator: keeps empty parts,
`split('') ` never occurs.  `splitOnChar c l` is never `[]`. -/
def splitOnChar (sep : Char) : List Char → List (List Char)
  | [] => [[]]
  | c :: cs =>
    if c = sep then [] :: splitOnChar sep cs
    else
      match splitOnChar sep cs with
      | [] => [[c]]
      | p :: ps => (c :: p) :: ps

/-- Python `line.split('-->')`: split on the three-character arrow,
left-to-right, non-overlapping. -/
def splitOnArrow : List Char → List (List Char)
  | '-' :: '-' :: '>' :: rest => [] :: splitOnArrow rest
  | c :: cs =>
    match splitOnArrow cs with
    | [] => [[c]]
    | p :: ps => (c :: p) :: ps
  | [] => [[]]

/-- Python `'-->' in line`. -/
def containsArrow (l : List Char) : Bool :=
  1 < (splitOnArrow l).length

/-- Python `s.strip()`. -/
def pyStrip (l : List Char) : List Char :=
  ((l.dropWhile Char.isWhitespace).reverse.dropWhile Char.isWhitespace).reverse

/-- Python `'c'.join(parts)` over char lists. -/
def intercalateChar (sep : Char) : List (List Char) → List Char
  | [] => []
  | [p] => p
  | p :: ps => p ++ sep :: intercalateChar sep ps

/-- Parse a non-empty all-digit string. -/
def digitsToNat? (l : List Char) : Option Nat :=
  if l ≠ [] ∧ l.all Char.isDigit then
    some (l.foldl (fun a c => a * 10 + (c.toNat - 48)) 0)
  else none

/-- Python `datetime.strptime(s, '%H:%M:%S,%f')`, returning the time of day
in microseconds, or `none` where Python raises `ValueError`.  `%H`, `%M`,
`%S` accept one or two digits within range; `%f` accepts one to six digits,
right-padded to microseconds.  The literal `:` and `,` separators are
required, exactly as in the format string. -/
def parseTimestamp (l : List Char) : Option Nat :=
  match splitOnChar ':' l with
  | [hs, ms, rest] =>
    match splitOnChar ',' rest with
    | [ss, fs] =>
      match digitsToNat? hs, digitsToNat? ms, digitsToNat? ss, digitsToNat? fs with
      | some h, some m, some s, some f =>
        if hs.length ≤ 2 ∧ ms.length ≤ 2 ∧ ss.length ≤ 2 ∧ fs.length ≤ 6 ∧
            h ≤ 23 ∧ m ≤ 59 ∧ s ≤ 59 then
          some ((h * 3600 + m * 60 + s) * 1000000 + f * 10 ^ (6 - fs.length))
        else none
      | _, _, _, _ => none
    | _ => none
  | _ => none

/-- Python `re.findall(r'\S+', text)`: maximal runs of non-whitespace. -/
def tokenizeAux : List Char → List Char → List (List Char)
  | [], acc => if acc.isEmpty then [] else [acc.reverse]
  | c :: cs, acc =>
    if c.isWhitespace then
      if acc.isEmpty then tokenizeAux cs [] else acc.reverse :: tokenizeAux cs []
    else tokenizeAux cs (c :: acc)

def findallWords (l : List Char) : List (List Char) :=
  tokenizeAux l []

/-- Two-digit zero-padded decimal. -/
def pad2 (n : Nat) : String :=
  if n < 10 then "0" ++ toString n else toString n

/-- Three-digit zero-padded decimal. -/
def pad3 (n : Nat) : String :=
  if n < 100 then (if n < 10 then "00" else "0") ++ toString n else toString n

/-- Python `dt.strftime('%H:%M:%S,%f')[:-3]` for a time of day given in
microseconds: `HH:MM:SS,mmm` (milliseconds, the `[:-3]` slice drops the last
three microsecond digits). -/
def fmtTimestampMs (μ : Nat) : String :=
  let d := μ % 86400000000
  pad2 (d / 3600000000) ++ ":" ++ pad2 (d / 60000000 % 60) ++ ":" ++
    pad2 (d / 1000000 % 60) ++ "," ++ pad3 (d / 1000 % 1000)

/-- Python `int()` applied to a rational: truncation toward zero. -/
def pyIntOfRat (q : ℚ) : Int :=
  if 0 ≤ q then ⌊q⌋ else -⌊-q⌋

/-- The per-word cue expansion loop of `process_subtitle_content`
(lines 126-131 of the source): the i-th word starts at
`start + i * word_duration` and lasts `word_duration`; each word is emitted
as a timing line, a `{\highlight}{\k..}` text line, and a blank line.
Durations are modelled as exact rationals where Python uses binary floats;
this branch is unreachable (`processTimedLine_errs` below), since the
end-timestamp parse always fails first. -/
def expandWords (startμ : Nat) (endμ : Nat) (words : List (List Char)) :
    List (List Char) :=
  let n : ℚ := (words.length : ℚ)
  let wd : ℚ := ((endμ : ℚ) - (startμ : ℚ)) / 1000000 / n
  (List.range words.length).zip words |>.flatMap (fun iw =>
    let ws : ℚ := (startμ : ℚ) / 1000000 + (iw.1 : ℚ) * wd
    let we : ℚ := ws + wd
    let wsμ : Nat := (round (ws * 1000000) : ℤ).toNat
    let weμ : Nat := (round (we * 1000000) : ℤ).toNat
    [(fmtTimestampMs wsμ ++ " --> " ++ fmtTimestampMs weμ).data,
     ("\x7b\\highlight\x7d\x7b\\k" ++ toString (pyIntOfRat (wd * 100)) ++ "\x7d").data
       ++ iw.2,
     []])

/-- One subtitle timing line of `process_subtitle_content` (source lines
117-131).  Mirrors, in order: the two-target unpack of `line.split('-->')`
(raising `ValueError` when there are more than two parts), the strptime of
the start time, the strptime of `text_part.split(',')[0].strip()` as the end
time, tokenization of the remaining text, and the per-word expansion
(where an empty word list would raise `ZeroDivisionError`). -/
def processTimedLine (line : List Char) : Except String (List (List Char)) :=
  match splitOnArrow line with
  | [time_part, text_part] =>
    match parseTimestamp (pyStrip time_part) with
    | none => .error "time data does not match format"
    | some startμ =>
      match parseTimestamp (pyStrip ((splitOnChar ',' text_part).headD [])) with
      | none => .error "time data does not match format"
      | some endμ =>
        let text := pyStrip (intercalateChar ',' ((splitOnChar ',' text_part).drop 1))
        let words := findallWords text
        if words.length = 0 then .error "division by zero"
        else .ok (expandWords startμ endμ words)
  | _ => .error "too many values to unpack"

/-- The per-line loop of `process_subtitle_content` (source lines 114-133):
a line that has non-whitespace content and contains `-->` is expanded via
`processTimedLine` (an exception aborts the whole call); any other line is
passed through unchanged. -/
def processLines : List (List Char) → Except String (List (List Char))
  | [] => .ok []
  | line :: rest =>
    if !(pyStrip line).isEmpty && containsArrow line then
      match processTimedLine line with
      | .error e => .error e
      | .ok outs =>
        match processLines rest with
        | .error e => .error e
        | .ok rs => .ok (outs ++ rs)
    else
      match processLines rest with
      | .error e => .error e
      | .ok rs => .ok (line :: rs)

/-- `process_subtitle_content(content, one_word_highlight)` (source lines
108-135).  With highlighting disabled the content is returned unchanged;
otherwise the content is split on newlines, every timing line is expanded,
and the result joined with newlines.  A Python exception is an `.error`. -/
def process_subtitle_content (content : String) (one_word_highlight : Bool) :
    Except String String :=
  if !one_word_highlight then .ok content
  else
    match processLines (splitOnChar '\n' content.data) with
    | .error e => .error e
    | .ok ls => .ok (intercalateChar '\n' ls).asString

/-! ## Lemmas: the end-timestamp parse of a timing line can never succeed

The source parses the end time as
`datetime.strptime(text_part.split(',')[0].strip(), '%H:%M:%S,%f')`:
the argument is everything before the first comma of `text_part`, so it
cannot contain a comma, yet the format string requires a literal comma.
Hence every line containing `-->` raises `ValueError`. -/

theorem splitOnChar_ne_nil (sep : Char) (l : List Char) : splitOnChar sep l ≠ [] := by
  induction l with
  | nil => simp [splitOnChar]
  | cons c cs ih =>
    simp only [splitOnChar]
    split
    · simp
    · split <;> simp

theorem not_mem_of_mem_splitOnChar {sep : Char} {l p : List Char}
    (h : p ∈ splitOnChar sep l) : sep ∉ p := by
  induction l generalizing p with
  | nil => simp [splitOnChar] at h; simp [h]
  | cons c cs ih =>
    simp only [splitOnChar] at h
    split at h
    · rcases List.mem_cons.mp h with rfl | h
      · simp
      · exact ih h
    · rename_i hc
      rcases hq : splitOnChar sep cs with _ | ⟨q, qs⟩
      · exact absurd hq (splitOnChar_ne_nil _ _)
      · rw [hq] at h
        rcases List.mem_cons.mp h with rfl | h
        · intro hm
          rcases List.mem_cons.mp hm with rfl | hm
          · exact hc rfl
          · exact ih (hq ▸ List.mem_cons_self q qs) hm
        · exact ih (hq ▸ List.mem_cons_of_mem q h)

theorem mem_of_mem_splitOnChar {sep : Char} {l p : List Char} {x : Char}
    (h : p ∈ splitOnChar sep l) (hx : x ∈ p) : x ∈ l := by
  induction l generalizing p with
  | nil => simp [splitOnChar] at h; subst h; simp at hx
  | cons c cs ih =>
    simp only [splitOnChar] at h
    split at h
    · rcases List.mem_cons.mp h with rfl | h
      · simp at hx
      · exact List.mem_cons_of_mem c (ih h hx)
    · rcases hq : splitOnChar sep cs with _ | ⟨q, qs⟩
      · exact absurd hq (splitOnChar_ne_nil _ _)
      · rw [hq] at h
        rcases List.mem_cons.mp h with rfl | h
        · rcases List.mem_cons.mp hx with rfl | hx
          · exact List.mem_cons_self x cs
          · exact List.mem_cons_of_mem c (ih (hq ▸ List.mem_cons_self q qs) hx)
        · exact List.mem_cons_of_mem c (ih (hq ▸ List.mem_cons_of_mem q h) hx)

theorem splitOnChar_of_not_mem {sep : Char} {l : List Char} (h : sep ∉ l) :
    splitOnChar sep l = [l] := by
  induction l with
  | nil => rfl
  | cons c cs ih =>
    have hc : ¬ (c = sep) := fun hc => h (List.mem_cons.mpr (Or.inl hc.symm))
    have hcs : sep ∉ cs := fun hm => h (List.mem_cons_of_mem c hm)
    simp only [splitOnChar, if_neg hc, ih hcs]

theorem splitOnChar_append_cons {sep : Char} {l1 : List Char} (l2 : List Char)
    (h : sep ∉ l1) :
    splitOnChar sep (l1 ++ sep :: l2) = l1 :: splitOnChar sep l2 := by
  induction l1 with
  | nil => simp [splitOnChar]
  | cons c cs ih =>
    have hc : ¬ (c = sep) := fun hc => h (List.mem_cons.mpr (Or.inl hc.symm))
    have hcs : sep ∉ cs := fun hm => h (List.mem_cons_of_mem c hm)
    simp only [List.cons_append, splitOnChar, if_neg hc, List.append_eq, ih hcs]

theorem mem_of_mem_pyStrip {l : List Char} {x : Char} (h : x ∈ pyStrip l) : x ∈ l := by
  unfold pyStrip at h
  rw [List.mem_reverse] at h
  have h2 := (List.dropWhile_sublist _).mem h
  rw [List.mem_reverse] at h2
  exact (List.dropWhile_sublist _).mem h2

theorem parseTimestamp_of_no_comma {l : List Char} (h : (',' : Char) ∉ l) :
    parseTimestamp l = none := by
  rcases h3 : splitOnChar ':' l with _ | ⟨hs, _ | ⟨ms, _ | ⟨rest, _ | ⟨r4, rs⟩⟩⟩⟩ <;>
    simp only [parseTimestamp, h3]
  have hmem : rest ∈ splitOnChar ':' l := by rw [h3]; simp
  have hrest : (',' : Char) ∉ rest := fun hm => h (mem_of_mem_splitOnChar hmem hm)
  simp only [splitOnChar_of_not_mem hrest]

/-- Every line containing `-->` makes `processTimedLine` raise: either the
tuple unpack fails, or a strptime fails — at the latest the end-time parse,
whose argument never contains the comma its format requires. -/
theorem processTimedLine_errs (line : List Char) :
    processTimedLine line = .error "time data does not match format" ∨
    processTimedLine line = .error "too many values to unpack" := by
  rcases h : splitOnArrow line with _ | ⟨tp, _ | ⟨xp, _ | ⟨t3, ts⟩⟩⟩
  · right; simp only [processTimedLine, h]
  · right; simp only [processTimedLine, h]
  · left
    have h1 : (splitOnChar ',' xp).headD [] ∈ splitOnChar ',' xp := by
      rcases hq : splitOnChar ',' xp with _ | ⟨a, as⟩
      · exact absurd hq (splitOnChar_ne_nil _ _)
      · simp
    have h4 : (',' : Char) ∉ pyStrip ((splitOnChar ',' xp).headD []) := fun hm =>
      not_mem_of_mem_splitOnChar h1 (mem_of_mem_pyStrip hm)
    rcases hs : parseTimestamp (pyStrip tp) with _ | μ <;>
      simp only [processTimedLine, h, hs, parseTimestamp_of_no_comma h4]
  · right; simp only [processTimedLine, h]

theorem processLines_errs (lines : List (List Char))
    (h : ∃ l ∈ lines, (!(pyStrip l).isEmpty && containsArrow l) = true) :
    ∃ e, processLines lines = .error e ∧
      (e = "time data does not match format" ∨ e = "too many values to unpack") := by
  induction lines with
  | nil => simp at h
  | cons line rest ih =>
    by_cases hg : (!(pyStrip line).isEmpty && containsArrow line) = true
    · rcases processTimedLine_errs line with he | he
      · exact ⟨_, by simp [processLines, hg, he], Or.inl rfl⟩
      · exact ⟨_, by simp [processLines, hg, he], Or.inr rfl⟩
    · obtain ⟨l, hl, hgl⟩ := h
      rcases List.mem_cons.mp hl with rfl | hl
      · exact absurd hgl hg
      · obtain ⟨e, he, hor⟩ := ih ⟨l, hl, hgl⟩
        exact ⟨e, by simp [processLines, hg, he], hor⟩

theorem process_subtitle_content_errs (content : String)
    (h : ∃ l ∈ splitOnChar '\n' content.data,
      (!(pyStrip l).isEmpty && containsArrow l) = true) :
    ∃ e, process_subtitle_content content true = .error e ∧
      e ≠ "division by zero" := by
  obtain ⟨e, he, hor⟩ := processLines_errs _ h
  refine ⟨e, by simp [process_subtitle_content, he], ?_⟩
  rcases hor with rfl | rfl <;> decide

/-! ## Claims C2 and C3 -/

/-- C2: the spec claims that for the cue `00:00:01,000 --> 00:00:03,000`
with text "a b", expansion with word-highlight enabled yields exactly two
cues of 1.000s each with karaoke parameter 100.  The code cannot produce
this: the end timestamp is parsed from `text_part.split(',')[0]` — which has
the `,000` milliseconds stripped off — against the format `'%H:%M:%S,%f'`
that requires a literal comma, so `datetime.strptime` raises `ValueError`.
This theorem evaluates the embedded code at the spec's own example. -/
theorem c2_spec_example_raises_value_error :
    process_subtitle_content "00:00:01,000 --> 00:00:03,000\na b" true =
      .error "time data does not match format" := by rfl

/-- C3 counterexample: a cue whose display text tokenizes to zero words
(here a whitespace-only text line) does NOT make `process_subtitle_content`
return normally, contradicting the claim that such a cue "is dropped or
passed through unchanged, and the function returns normally": the timing
line's end-timestamp parse raises `ValueError` first. -/
theorem c3_counterexample :
    process_subtitle_content "00:00:01,000 --> 00:00:03,000\n \n" true =
      .error "time data does not match format" := by rfl

/-- C3 (amended): for every cue whose display text tokenizes to zero words,
`process_subtitle_content` with word-highlight enabled never reaches a
division by zero — but not by dropping the cue or passing it through:
the call raises a `ValueError` from timestamp parsing (never a
`ZeroDivisionError`) on the cue's timing line, so it does not return
normally. -/
theorem c3_zero_word_cue_raises_before_division (timing text : List Char)
    (harrow : containsArrow timing = true)
    (hnonblank : (pyStrip timing).isEmpty = false)
    (hnl : ('\n' : Char) ∉ timing)
    (_hzero : findallWords text = []) :
    ∃ e, process_subtitle_content (timing.asString ++ "\n" ++ text.asString) true =
        .error e ∧ e ≠ "division by zero" := by
  apply process_subtitle_content_errs
  refine ⟨timing, ?_, by simp [hnonblank, harrow]⟩
  have hdata : (timing.asString ++ "\n" ++ text.asString).data =
      timing ++ '\n' :: text := by
    simp [String.data_append, List.asString]
  rw [hdata, splitOnChar_append_cons _ hnl]
  simp

/-- Witness for C3 (amended) at the concrete zero-word cue
`00:00:01,000 --> 00:00:03,000` with whitespace-only text. -/
theorem c3_witness :
    (containsArrow "00:00:01,000 --> 00:00:03,000".data = true ∧
      (pyStrip "00:00:01,000 --> 00:00:03,000".data).isEmpty = false ∧
      ('\n' : Char) ∉ "00:00:01,000 --> 00:00:03,000".data ∧
      findallWords " ".data = []) ∧
    ∃ e, process_subtitle_content
        ("00:00:01,000 --> 00:00:03,000".data.asString ++ "\n" ++ " ".data.asString)
        true = .error e ∧ e ≠ "division by zero" :=
  ⟨⟨by decide, by decide, by decide, by decide⟩,
    c3_zero_word_cue_raises_before_division _ _ (by decide) (by decide)
      (by decide) (by decide)⟩

/-! ## Style line, option validation, and job fingerprint -/

/-- The constant `STORAGE_PATH = "/tmp/"` (source line 16). -/
def STORAGE_PATH : String := "/tmp/"

/-- `ACCEPTABLE_FONTS = list(FONT_PATHS.keys())` (source line 33), with the
module-level `FONT_PATHS` dict passed as the `fontPaths` parameter. -/
def acceptableFonts (fontPaths : List (String × String)) : List String :=
  fontPaths.map (·.1)

/-- `generate_style_line(options)` (source lines 79-106): the ASS `Style:`
line, a comma-join of the `str()` of each style value (with its default),
in the fixed source order. -/
def generate_style_line (options : PyDict) : String :=
  let vals : List PyVal :=
    [.vStr "Default",
     dictGetD options "font_name" (.vStr "Arial"),
     dictGetD options "font_size" (.vInt 24),
     dictGetD options "primary_color" (.vStr "&H00FFFFFF"),
     dictGetD options "outline_color" (.vStr "&H00000000"),
     dictGetD options "back_color" (.vStr "&H00000000"),
     dictGetD options "bold" (.vInt 0),
     dictGetD options "italic" (.vInt 0),
     dictGetD options "underline" (.vInt 0),
     dictGetD options "strikeout" (.vInt 0),
     .vInt 100, .vInt 100, .vInt 0, .vInt 0, .vInt 1,
     dictGetD options "outline" (.vInt 1),
     dictGetD options "shadow" (.vInt 0),
     dictGetD options "alignment" (.vInt 2),
     dictGetD options "margin_l" (.vInt 10),
     dictGetD options "margin_r" (.vInt 10),
     dictGetD options "margin_v" (.vInt 10),
     dictGetD options "encoding" (.vInt 1),
     dictGetD options "one_word_highlight" (.vBool false)]
  "Style: " ++ String.intercalate "," (vals.map pyStr)

/-- `validate_options(options)` (source lines 137-147): required keys in
order `font_name`, `font_size`, `primary_color`; then the font allow-list
check; then `isinstance(font_size, int)` (true for bools too) and
positivity.  An `.error` is a raised `ValueError`. -/
def validate_options (fontPaths : List (String × String)) (options : PyDict) :
    Except String Unit :=
  if !dictContains options "font_name" then
    .error "Missing required option: font_name"
  else if !dictContains options "font_size" then
    .error "Missing required option: font_size"
  else if !dictContains options "primary_color" then
    .error "Missing required option: primary_color"
  else if !pyInStrList (dictGet? options "font_name") (acceptableFonts fontPaths) then
    .error "Invalid font name"
  else
    match dictGet? options "font_size" with
    | some v =>
      if pyIsInt v && decide (0 < pyIntVal v) then .ok ()
      else .error "Font size must be a positive integer"
    | none => .error "Font size must be a positive integer"

/-- Minimal JSON string escaping (backslash and double quote). -/
def jsonEscape (s : String) : String :=
  ((s.data.map (fun c => if c = '"' ∨ c = '\\' then ['\\', c] else [c])).flatten).asString

def jsonQuote (s : String) : String :=
  "\"" ++ jsonEscape s ++ "\""

/-- JSON serialization of one option value, as `json.dumps` renders it. -/
def pyValToJson : PyVal → String
  | .vStr s => jsonQuote s
  | .vInt n => toString n
  | .vBool b => if b then "true" else "false"

/-- Kernel-evaluable lexicographic comparison of char lists by code point,
Python's string `<=` (up to the surrogate-free code points in use here). -/
def charListLe : List Char → List Char → Bool
  | [], _ => true
  | _ :: _, [] => false
  | a :: as, b :: bs =>
    if a.toNat = b.toNat then charListLe as bs else decide (a.toNat < b.toNat)

/-- Lexicographic `<=` on strings. -/
def strLe (a b : String) : Bool :=
  charListLe a.data b.data

theorem charListLe_total : ∀ x y : List Char,
    charListLe x y = true ∨ charListLe y x = true := by
  intro x
  induction x with
  | nil => intro y; left; rfl
  | cons a as ih =>
    intro y
    cases y with
    | nil => right; rfl
    | cons b bs =>
      by_cases hab : a.toNat = b.toNat
      · rcases ih bs with h | h
        · left; simp [charListLe, hab, h]
        · right; simp [charListLe, hab.symm, h]
      · rcases Nat.lt_or_ge a.toNat b.toNat with hlt | hge
        · left; simp [charListLe, hab, hlt]
        · have hlt2 : b.toNat < a.toNat :=
            Nat.lt_of_le_of_ne hge (fun e => hab e.symm)
          have hne : ¬ b.toNat = a.toNat := fun e => hab e.symm
          right
          simp [charListLe, hne, hlt2]

theorem charListLe_trans : ∀ x y z : List Char,
    charListLe x y = true → charListLe y z = true → charListLe x z = true := by
  intro x
  induction x with
  | nil => intro y z _ _; rfl
  | cons a as ih =>
    intro y z hxy hyz
    cases y with
    | nil => simp [charListLe] at hxy
    | cons b bs =>
      cases z with
      | nil => simp [charListLe] at hyz
      | cons c cs =>
        by_cases hab : a.toNat = b.toNat <;> by_cases hbc : b.toNat = c.toNat
        · simp only [charListLe, if_pos hab] at hxy
          simp only [charListLe, if_pos hbc] at hyz
          simp [charListLe, hab.trans hbc, ih bs cs hxy hyz]
        · simp only [charListLe, if_pos hab] at hxy
          simp only [charListLe, if_neg hbc, decide_eq_true_eq] at hyz
          have hac : a.toNat ≠ c.toNat := by rw [hab]; exact Nat.ne_of_lt hyz
          simp [charListLe, hac, hab ▸ hyz]
        · simp only [charListLe, if_neg hab, decide_eq_true_eq] at hxy
          simp only [charListLe, if_pos hbc] at hyz
          have hac : a.toNat ≠ c.toNat := hbc ▸ Nat.ne_of_lt hxy
          simp [charListLe, hac, hbc ▸ hxy]
        · simp only [charListLe, if_neg hab, decide_eq_true_eq] at hxy
          simp only [charListLe, if_neg hbc, decide_eq_true_eq] at hyz
          have hac : a.toNat < c.toNat := Nat.lt_trans hxy hyz
          simp [charListLe, Nat.ne_of_lt hac, hac]

theorem charListLe_antisymm : ∀ x y : List Char,
    charListLe x y = true → charListLe y x = true → x = y := by
  intro x
  induction x with
  | nil =>
    intro y _ hyx
    cases y with
    | nil => rfl
    | cons b bs => simp [charListLe] at hyx
  | cons a as ih =>
    intro y hxy hyx
    cases y with
    | nil => simp [charListLe] at hxy
    | cons b bs =>
      by_cases hab : a.toNat = b.toNat
      · simp only [charListLe, if_pos hab] at hxy
        simp only [charListLe, if_pos hab.symm] at hyx
        have hchar : a = b := Char.eq_of_val_eq (UInt32.ext hab)
        rw [hchar, ih bs hxy hyx]
      · simp only [charListLe, if_neg hab, decide_eq_true_eq] at hxy
        simp only [charListLe, if_neg (fun e : b.toNat = a.toNat => hab e.symm),
          decide_eq_true_eq] at hyx
        exact absurd hyx (Nat.lt_asymm hxy)

instance : IsTotal String (fun a b => strLe a b = true) :=
  ⟨fun a b => charListLe_total a.data b.data⟩

instance : IsTrans String (fun a b => strLe a b = true) :=
  ⟨fun a b c => charListLe_trans a.data b.data c.data⟩

instance : IsAntisymm String (fun a b => strLe a b = true) :=
  ⟨fun a b h1 h2 => by
    have := charListLe_antisymm a.data b.data h1 h2
    exact String.toList_inj.mp this⟩

/-- The distinct keys of the dict in lexicographic order: what
`json.dumps(..., sort_keys=True)` iterates over. -/
def sortedKeys (d : PyDict) : List String :=
  List.insertionSort (fun a b => strLe a b = true) (d.map (·.1)).dedup

/-- `json.dumps` of the options dict with `sort_keys=True` and default
separators: keys sorted lexicographically, each with its (last-bound)
value. -/
def serializeDict (d : PyDict) : String :=
  "\x7b" ++ String.intercalate ", " ((sortedKeys d).map (fun k =>
    jsonQuote k ++ ": " ++
      (match dictGet? d k with
       | some v => pyValToJson v
       | none => "null"))) ++ "\x7d"

/-- `json.dumps({'file_url': ..., 'caption_srt': ..., 'caption_type': ...,
'options': ...}, sort_keys=True)` (source lines 150-155): the four top-level
keys in their sorted order `caption_srt < caption_type < file_url <
options`. -/
def serializeJob (file_url caption_srt caption_type : String) (options : PyDict) :
    String :=
  "\x7b" ++ jsonQuote "caption_srt" ++ ": " ++ jsonQuote caption_srt ++ ", " ++
    jsonQuote "caption_type" ++ ": " ++ jsonQuote caption_type ++ ", " ++
    jsonQuote "file_url" ++ ": " ++ jsonQuote file_url ++ ", " ++
    jsonQuote "options" ++ ": " ++ serializeDict options ++ "\x7d"

/-- Deterministic model of `hashlib.md5(job_data).hexdigest()`.  Per spec
§4.4 the digest algorithm itself is not a compatibility requirement — only
determinism over the canonical serialization matters — so the external
`hashlib` primitive is modelled by a simple 128-bit fold over the bytes. -/
def md5Model (s : String) : Nat :=
  s.data.foldl (fun h c => (h * 131 + c.toNat) % 2 ^ 128) 5381

/-- `get_job_hash(file_url, caption_srt, caption_type, options)` (source
lines 149-156): digest of the canonical (sort_keys) JSON serialization of
the four job inputs. -/
def get_job_hash (file_url caption_srt caption_type : String) (options : PyDict) :
    Nat :=
  md5Model (serializeJob file_url caption_srt caption_type options)

/-- `convert_array_to_collection(options)` (source lines 314-316): the dict
comprehension `{item["option"]: item["value"] for item in options}`.  A
`PyDict` is modelled as the raw pair list observed through last-binding
lookup (`dictGet?`), which is exactly the overwrite semantics of the
comprehension, so the conversion is the identity on the representation. -/
def convert_array_to_collection (options : List (String × PyVal)) : PyDict :=
  options

theorem dictGet?_eq_none_iff (d : PyDict) (k : String) :
    dictGet? d k = none ↔ k ∉ d.map (·.1) := by
  simp only [dictGet?, Option.map_eq_none', List.find?_eq_none, List.mem_reverse,
    List.mem_map, beq_iff_eq]
  constructor
  · rintro h ⟨p, hp, hk⟩
    exact h p hp hk
  · intro h p hp hk
    exact h ⟨p, hp, hk⟩

/-! ## Claim C6: fingerprint determinism -/

/-- C6: two jobs with equal `file_url`, `caption_srt`, `caption_type` and
logically equal options — in particular `{option, value}` lists in different
insertion orders that convert to the same mapping — receive the identical
digest from `get_job_hash`.  Equality of the converted mappings is taken
pointwise on every key occurring in either list (keys occurring in neither
are bound in neither). -/
theorem c6_fingerprint_deterministic (u cs ct : String)
    (l1 l2 : List (String × PyVal))
    (h : ∀ k ∈ l1.map (·.1) ++ l2.map (·.1),
      dictGet? (convert_array_to_collection l1) k =
        dictGet? (convert_array_to_collection l2) k) :
    get_job_hash u cs ct (convert_array_to_collection l1) =
      get_job_hash u cs ct (convert_array_to_collection l2) := by
  simp only [convert_array_to_collection] at h ⊢
  have hall : ∀ k, dictGet? l1 k = dictGet? l2 k := by
    intro k
    by_cases h1 : k ∈ l1.map (·.1)
    · exact h k (List.mem_append.mpr (Or.inl h1))
    · by_cases h2 : k ∈ l2.map (·.1)
      · exact h k (List.mem_append.mpr (Or.inr h2))
      · rw [(dictGet?_eq_none_iff _ _).mpr h1, (dictGet?_eq_none_iff _ _).mpr h2]
  have hmemkeys : ∀ k, k ∈ l1.map (·.1) ↔ k ∈ l2.map (·.1) := by
    intro k
    constructor
    · intro hk
      by_contra hk2
      have h2 := (dictGet?_eq_none_iff l2 k).mpr hk2
      rw [← hall k] at h2
      exact (dictGet?_eq_none_iff l1 k).mp h2 hk
    · intro hk
      by_contra hk2
      have h2 := (dictGet?_eq_none_iff l1 k).mpr hk2
      rw [hall k] at h2
      exact (dictGet?_eq_none_iff l2 k).mp h2 hk
  have hkeys : sortedKeys l1 = sortedKeys l2 := by
    unfold sortedKeys
    have hperm : List.Perm (l1.map (·.1)).dedup (l2.map (·.1)).dedup := by
      rw [List.perm_ext_iff_of_nodup (List.nodup_dedup _) (List.nodup_dedup _)]
      intro k
      simp only [List.mem_dedup]
      exact hmemkeys k
    exact List.eq_of_perm_of_sorted
      (((List.perm_insertionSort _ _).trans hperm).trans
        (List.perm_insertionSort _ _).symm)
      (List.sorted_insertionSort _ _) (List.sorted_insertionSort _ _)
  have hdict : serializeDict l1 = serializeDict l2 := by
    unfold serializeDict
    rw [hkeys]
    congr 2
    apply congrArg
    apply List.map_congr_left
    intro k _
    rw [hall k]
  unfold get_job_hash serializeJob
  rw [hdict]

/-- Witness for C6: the same two options supplied in opposite insertion
orders hash identically. -/
theorem c6_witness :
    (∀ k ∈ [("font_size", PyVal.vInt 24), ("font_name", PyVal.vStr "Arial")].map (·.1) ++
        [("font_name", PyVal.vStr "Arial"), ("font_size", PyVal.vInt 24)].map (·.1),
      dictGet? (convert_array_to_collection
        [("font_size", PyVal.vInt 24), ("font_name", PyVal.vStr "Arial")]) k =
      dictGet? (convert_array_to_collection
        [("font_name", PyVal.vStr "Arial"), ("font_size", PyVal.vInt 24)]) k) ∧
    get_job_hash "u" "s" "srt" (convert_array_to_collection
      [("font_size", PyVal.vInt 24), ("font_name", PyVal.vStr "Arial")]) =
    get_job_hash "u" "s" "srt" (convert_array_to_collection
      [("font_name", PyVal.vStr "Arial"), ("font_size", PyVal.vInt 24)]) :=
  ⟨by decide, c6_fingerprint_deterministic "u" "s" "srt" _ _ (by decide)⟩

/-! ## The render orchestrator `process_captioning`

External collaborators (lines 12-13, 174, 198, 265, 275-279, 289 of the
source) are modelled as an environment of function-valued fields; the
shared filesystem (the cache records under `/tmp` and the staging files) is
explicit state; collaborator invocations and the two data points the claims
observe (the persisted subtitle content, the font-fallback branch) are
recorded in a trace.  The `ProgressTracker` and all logging are
observability-only in the source and are not modelled. -/

/-- What a read of a cache record at a path can see: a well-formed record
`{'output_filename': ...}`, or bytes that make `json.load` raise. -/
inductive CacheContent where
  | valid : String → CacheContent
  | corrupt : CacheContent
deriving DecidableEq, Repr

/-- External collaborators of one orchestration call.  Each returns
`Except`, `.error` meaning the Python call raised. -/
structure Env where
  download : String → Except String String
  httpGet : String → Except String String
  probe : String → Except String Nat
  render : String → String → String → Except String Unit
  upload : String → Except String String
  cacheWriteOk : Bool
deriving Inhabited

/-- Filesystem state: cache records keyed by path, and the set of staging
files currently present in the working directory. -/
structure FS where
  cache : List (String × CacheContent)
  files : List String
deriving DecidableEq, Repr

/-- Observation trace of one orchestration call: collaborator call counts,
the subtitle content persisted to `srt_path` (if reached), and whether the
font-resolution fallback branch (source lines 223-225) was taken. -/
structure Trace where
  downloads : Nat := 0
  fetches : Nat := 0
  probes : Nat := 0
  renders : Nat := 0
  uploads : Nat := 0
  srtContent : Option String := none
  fontFallback : Bool := false
deriving DecidableEq, Repr

/-- Error classification mirroring the `except` clauses of
`process_captioning` (source lines 301-312): `requests.RequestException`,
`ValueError`, `ffmpeg.Error`, and the generic `Exception` branch (which is
where cache JSON errors and GCS upload errors land).  Every branch logs and
re-raises, so the error always propagates to the caller. -/
inductive PCError where
  | request : String → PCError
  | validation : String → PCError
  | ffmpegError : String → PCError
  | generic : String → PCError
deriving DecidableEq, Repr

/-- Read of the cache record stored at a path, `none` when
`os.path.exists(cache_path)` is false. -/
def lookupCache (cache : List (String × CacheContent)) (path : String) :
    Option CacheContent :=
  (cache.find? (·.1 == path)).map (·.2)

/-- Python `caption_srt.startswith("https")` (source line 196). -/
def startsWithHttps (s : String) : Bool :=
  "https".data.isPrefixOf s.data

/-- The synthesized `[Script Info]` header for the ass dialect (source
lines 184-193), with `generate_style_line` interpolated. -/
def assHeader (options : PyDict) : String :=
  "\n[Script Info]\nTitle: Highlight Current Word\nScriptType: v4.00+\n" ++
    "[V4+ Styles]\nFormat: Name, Fontname, Fontsize, PrimaryColour, " ++
    "OutlineColour, BackColour, Bold, Italic, Underline, StrikeOut, ScaleX, " ++
    "ScaleY, Spacing, Angle, BorderStyle, Outline, Shadow, Alignment, " ++
    "MarginL, MarginR, MarginV, Encoding\n" ++ generate_style_line options ++
    "\n[Events]\nFormat: Layer, Start, End, Style, Name, MarginL, MarginR, " ++
    "MarginV, Effect, Text\n"

/-- The `force_style` key/value pairs of the non-ass subtitle filter
(source lines 235-259), in source order; `Highlight` is `None` (omitted)
unless word-highlight is requested. -/
def simpleStyleOptions (options : PyDict) (one_word_highlight : Bool)
    (font_name : PyVal) : List (String × Option String) :=
  [("FontName", some (pyStr font_name)),
   ("FontSize", some (pyStr (dictGetD options "font_size" (.vInt 24)))),
   ("PrimaryColour", some (pyStr (dictGetD options "primary_color" (.vStr "&H00FFFFFF")))),
   ("SecondaryColour", some (pyStr (dictGetD options "secondary_color" (.vStr "&H00000000")))),
   ("OutlineColour", some (pyStr (dictGetD options "outline_color" (.vStr "&H00000000")))),
   ("BackColour", some (pyStr (dictGetD options "back_color" (.vStr "&H00000000")))),
   ("Bold", some (pyStr (dictGetD options "bold" (.vInt 0)))),
   ("Italic", some (pyStr (dictGetD options "italic" (.vInt 0)))),
   ("Underline", some (pyStr (dictGetD options "underline" (.vInt 0)))),
   ("StrikeOut", some (pyStr (dictGetD options "strikeout" (.vInt 0)))),
   ("Alignment", some (pyStr (dictGetD options "alignment" (.vInt 2)))),
   ("MarginV", some (pyStr (dictGetD options "margin_v" (.vInt 10)))),
   ("MarginL", some (pyStr (dictGetD options "margin_l" (.vInt 10)))),
   ("MarginR", some (pyStr (dictGetD options "margin_r" (.vInt 10)))),
   ("Outline", some (pyStr (dictGetD options "outline" (.vInt 1)))),
   ("Shadow", some (pyStr (dictGetD options "shadow" (.vInt 0)))),
   ("Blur", some (pyStr (dictGetD options "blur" (.vInt 0)))),
   ("BorderStyle", some (pyStr (dictGetD options "border_style" (.vInt 1)))),
   ("Encoding", some (pyStr (dictGetD options "encoding" (.vInt 1)))),
   ("Spacing", some (pyStr (dictGetD options "spacing" (.vInt 0)))),
   ("Angle", some (pyStr (dictGetD options "angle" (.vInt 0)))),
   ("UpperCase", some (pyStr (dictGetD options "uppercase" (.vInt 0)))),
   ("Highlight", if one_word_highlight then some "1" else none)]

/-- The subtitle filter expression (source lines 227-263). -/
def buildSubtitleFilter (caption_type srt_path : String) (options : PyDict)
    (one_word_highlight : Bool) (font_name : PyVal) : String :=
  if caption_type = "ass" then
    if one_word_highlight then
      "ass='" ++ srt_path ++ "',subtitles='" ++ srt_path ++
        "':force_style='Highlight=1'"
    else
      "subtitles='" ++ srt_path ++ "'"
  else
    "subtitles=" ++ srt_path ++ ":force_style='" ++
      String.intercalate ","
        (((simpleStyleOptions options one_word_highlight font_name).filterMap
          (fun kv => kv.2.map (fun v => kv.1 ++ "=" ++ v)))) ++ "'"

/-- Subtitle materialization (source lines 196-214): a remote reference
(`https...`) is fetched — for the srt and vtt dialects the response bytes
are written verbatim, for any other dialect the synthesized header is
prepended and `process_subtitle_content` applied; an inline payload always
has the header prepended and `process_subtitle_content` applied.  Returns
the content written to `srt_path`. -/
def materializeSubtitle (env : Env) (caption_srt caption_type caption_style : String)
    (one_word_highlight : Bool) : Except PCError String :=
  if startsWithHttps caption_srt then
    match env.httpGet caption_srt with
    | .error e => .error (.request e)
    | .ok body =>
      if caption_type = "srt" ∨ caption_type = "vtt" then .ok body
      else
        match process_subtitle_content (caption_style ++ body) one_word_highlight with
        | .error e => .error (.validation e)
        | .ok sc => .ok sc
  else
    match process_subtitle_content (caption_style ++ caption_srt) one_word_highlight with
    | .error e => .error (.validation e)
    | .ok sc => .ok sc

/-- The cache record path `os.path.join(STORAGE_PATH, f"{job_hash}_cache.json")`
(source line 165). -/
def cache_path_of (file_url caption_srt caption_type : String) (options : PyDict) :
    String :=
  STORAGE_PATH ++ toString (get_job_hash file_url caption_srt caption_type options) ++
    "_cache.json"

/-- `process_captioning(file_url, caption_srt, caption_type, options, job_id)`
(source lines 158-312), over the collaborator environment and filesystem
state.  Returns the Python return value (or the propagated exception), the
resulting filesystem state, and the observation trace.  Mirrors the source
order: convert options, validate, fingerprint, cache probe, download,
subtitle materialization, font resolution, filter construction, probe,
render, upload, staging cleanup (success path only, lines 292-294), cache
write. -/
def process_captioning (fontPaths : List (String × String)) (env : Env) (fs : FS)
    (file_url caption_srt caption_type : String)
    (optionsArr : List (String × PyVal)) (job_id : String) :
    Except PCError String × FS × Trace :=
  let options := convert_array_to_collection optionsArr
  match validate_options fontPaths options with
  | .error e => (.error (.validation e), fs, {})
  | .ok _ =>
    match lookupCache fs.cache (cache_path_of file_url caption_srt caption_type options) with
    | some (.valid cached) => (.ok cached, fs, {})
    | some .corrupt => (.error (.generic "cache record is not valid JSON"), fs, {})
    | none =>
      match env.download file_url with
      | .error e => (.error (.request e), fs, { downloads := 1 })
      | .ok video_path =>
        let fs1 : FS := { fs with files := video_path :: fs.files }
        let srt_path := STORAGE_PATH ++ job_id ++ "." ++ caption_type
        let one_word_highlight := pyTruthy (dictGetD options "one_word_highlight" (.vBool false))
        let caption_style := if caption_type = "ass" then assHeader options else ""
        let fetched := if startsWithHttps caption_srt then 1 else 0
        match materializeSubtitle env caption_srt caption_type caption_style one_word_highlight with
        | .error e => (.error e, fs1, { downloads := 1, fetches := fetched })
        | .ok subtitle_content =>
          let fs2 : FS := { fs1 with files := srt_path :: fs1.files }
          let output_path := STORAGE_PATH ++ job_id ++ "_captioned.mp4"
          let font_name := dictGetD options "font_name" (.vStr "Arial")
          let fallback := !pyValIsFontKey font_name (acceptableFonts fontPaths)
          let subtitle_filter :=
            buildSubtitleFilter caption_type srt_path options one_word_highlight font_name
          let tr0 : Trace :=
            { downloads := 1, fetches := fetched, srtContent := some subtitle_content,
              fontFallback := fallback }
          match env.probe video_path with
          | .error e => (.error (.ffmpegError e), fs2, { tr0 with probes := 1 })
          | .ok _total_frames =>
            match env.render video_path output_path subtitle_filter with
            | .error e =>
              (.error (.ffmpegError e), fs2, { tr0 with probes := 1, renders := 1 })
            | .ok _ =>
              let fs3 : FS := { fs2 with files := output_path :: fs2.files }
              match env.upload output_path with
              | .error e =>
                (.error (.generic e), fs3,
                  { tr0 with probes := 1, renders := 1, uploads := 1 })
              | .ok output_filename =>
                let fs4 : FS :=
                  { fs3 with files :=
                      ((fs3.files.erase video_path).erase srt_path).erase output_path }
                let trF : Trace := { tr0 with probes := 1, renders := 1, uploads := 1 }
                if env.cacheWriteOk then
                  (.ok output_filename,
                    { fs4 with cache :=
                        (cache_path_of file_url caption_srt caption_type options,
                          .valid output_filename) :: fs4.cache },
                    trF)
                else
                  (.error (.generic "cache record write failed"), fs4, trF)

/-! ## Orchestrator lemmas -/

/-- Removing the three staged paths undoes staging them, whatever the
paths are (`os.remove` at source lines 292-294 against the three files
staged earlier in the call). -/
theorem erase_staged_triple (a b c : String) (l : List String) :
    (((c :: b :: a :: l).erase a).erase b).erase c = l := by
  by_cases hca : c = a <;> by_cases hba : b = a <;> by_cases hcb : c = b <;>
    simp_all [List.erase_cons]

/-- Head hit of a cache-record lookup. -/
theorem lookupCache_cons_self (p : String) (c : CacheContent)
    (rest : List (String × CacheContent)) :
    lookupCache ((p, c) :: rest) p = some c := by
  simp [lookupCache]

/-- Inversion of a successful orchestration call: validation passed, the
resulting state holds a valid cache record for the fingerprint mapping to
the returned reference, the staging-file set is exactly the initial one,
and the call was either a cache hit or the cache write succeeded. -/
theorem process_captioning_ok_inversion
    {fp : List (String × String)} {env : Env} {fs : FS}
    {u cs ct : String} {arr : List (String × PyVal)} {j : String}
    {out : String} {fs' : FS} {tr : Trace}
    (h : process_captioning fp env fs u cs ct arr j = (.ok out, fs', tr)) :
    validate_options fp (convert_array_to_collection arr) = .ok () ∧
    lookupCache fs'.cache (cache_path_of u cs ct (convert_array_to_collection arr)) =
      some (.valid out) ∧
    fs'.files = fs.files ∧
    (lookupCache fs.cache (cache_path_of u cs ct (convert_array_to_collection arr)) =
        some (.valid out) ∨ env.cacheWriteOk = true) := by
  unfold process_captioning at h
  simp only [] at h
  rcases hv : validate_options fp (convert_array_to_collection arr) with e | v0 <;>
    rw [hv] at h <;> dsimp only [] at h
  · simp at h
  refine ⟨rfl, ?_⟩
  rcases hl : lookupCache fs.cache
      (cache_path_of u cs ct (convert_array_to_collection arr)) with _ | (s | _) <;>
    rw [hl] at h <;> dsimp only [] at h
  · -- cache miss: the full pipeline ran
    rcases hd : env.download u with e | video_path <;> rw [hd] at h <;>
      dsimp only [] at h
    · simp at h
    rcases hm : materializeSubtitle env cs ct
        (if ct = "ass" then assHeader (convert_array_to_collection arr) else "")
        (pyTruthy (dictGetD (convert_array_to_collection arr) "one_word_highlight"
          (.vBool false))) with e | sc <;> rw [hm] at h <;> dsimp only [] at h
    · simp at h
    rcases hp : env.probe video_path with e | tf <;> rw [hp] at h <;>
      dsimp only [] at h
    · simp at h
    rcases hr : env.render video_path (STORAGE_PATH ++ j ++ "_captioned.mp4")
        (buildSubtitleFilter ct (STORAGE_PATH ++ j ++ "." ++ ct)
          (convert_array_to_collection arr)
          (pyTruthy (dictGetD (convert_array_to_collection arr) "one_word_highlight"
            (.vBool false)))
          (dictGetD (convert_array_to_collection arr) "font_name" (.vStr "Arial")))
        with e | _ <;> rw [hr] at h <;> dsimp only [] at h
    · simp at h
    rcases hu : env.upload (STORAGE_PATH ++ j ++ "_captioned.mp4") with e | outf <;>
      rw [hu] at h <;> dsimp only [] at h
    · simp at h
    rcases hw : env.cacheWriteOk with _ | _ <;> rw [hw] at h
    · simp at h
    · simp only [if_pos rfl, Prod.mk.injEq, Except.ok.injEq] at h
      obtain ⟨rfl, rfl, rfl⟩ := h
      refine ⟨lookupCache_cons_self _ _ _, erase_staged_triple _ _ _ _, Or.inr rfl⟩
  · -- cache hit on a valid record
    simp only [Prod.mk.injEq, Except.ok.injEq] at h
    obtain ⟨rfl, rfl, rfl⟩ := h
    exact ⟨hl, rfl, Or.inl rfl⟩
  · -- corrupt record: json.load raised
    simp at h

/-- A validation failure is terminal before any collaborator call: the call
returns the raised `ValueError`, the filesystem untouched, and an all-zero
trace. -/
theorem process_captioning_validation_error
    (fp : List (String × String)) (env : Env) (fs : FS)
    (u cs ct : String) (arr : List (String × PyVal)) (j : String) (e : String)
    (hv : validate_options fp (convert_array_to_collection arr) = .error e) :
    process_captioning fp env fs u cs ct arr j = (.error (.validation e), fs, {}) := by
  unfold process_captioning
  simp only []
  rw [hv]

/-- What a successful `validate_options` guarantees (source lines 137-147):
`font_size` present, the font name in the allow-list, and `font_size` a
positive Python integer. -/
theorem validate_options_ok_facts (fp : List (String × String)) (opts : PyDict)
    (h : validate_options fp opts = .ok ()) :
    dictContains opts "font_size" = true ∧
    pyInStrList (dictGet? opts "font_name") (acceptableFonts fp) = true ∧
    ∃ v, dictGet? opts "font_size" = some v ∧ pyIsInt v = true ∧ 0 < pyIntVal v := by
  unfold validate_options at h
  by_cases h1 : (!dictContains opts "font_name") = true
  · rw [if_pos h1] at h; exact absurd h (by simp)
  rw [if_neg h1] at h
  by_cases h2 : (!dictContains opts "font_size") = true
  · rw [if_pos h2] at h; exact absurd h (by simp)
  rw [if_neg h2] at h
  by_cases h3 : (!dictContains opts "primary_color") = true
  · rw [if_pos h3] at h; exact absurd h (by simp)
  rw [if_neg h3] at h
  by_cases h4 : (!pyInStrList (dictGet? opts "font_name") (acceptableFonts fp)) = true
  · rw [if_pos h4] at h; exact absurd h (by simp)
  rw [if_neg h4] at h
  rcases hv : dictGet? opts "font_size" with _ | v <;> rw [hv] at h <;>
    dsimp only [] at h
  · exact absurd h (by simp)
  by_cases hint : (pyIsInt v && decide (0 < pyIntVal v)) = true
  · refine ⟨by simpa using h2, by simpa using h4, v, rfl, ?_, ?_⟩
    · exact ((Bool.and_eq_true _ _).mp hint).1
    · exact of_decide_eq_true ((Bool.and_eq_true _ _).mp hint).2
  · rw [if_neg hint] at h
    exact absurd h (by simp)

/-! ## Concrete fixtures used by witnesses and counterexamples -/

/-- A one-font catalog, standing for the `FONT_PATHS` scan result. -/
def demoFonts : List (String × String) :=
  [("Arial", "/usr/share/fonts/custom/Arial.ttf")]

/-- A valid option array (the source's own usage example, lines 332-337,
minus the highlight flag). -/
def demoOptions : List (String × PyVal) :=
  [("font_name", .vStr "Arial"), ("font_size", .vInt 24),
   ("primary_color", .vStr "&H00FFFFFF")]

/-- The valid option array with word-highlight requested. -/
def highlightOptions : List (String × PyVal) :=
  demoOptions ++ [("one_word_highlight", .vBool true)]

/-- A remote subtitle body containing one standard SRT cue. -/
def remoteSrtBody : String := "00:00:01,000 --> 00:00:03,000\nhello world"

/-- Collaborators that all succeed. -/
def okEnv : Env :=
  ⟨fun _ => .ok "/tmp/vid.mp4", fun _ => .ok remoteSrtBody, fun _ => .ok 100,
   fun _ _ _ => .ok (), fun _ => .ok "gcs://bucket/out.mp4", true⟩

/-- Same collaborators but the GCS upload raises. -/
def uploadFailEnv : Env := { okEnv with upload := fun _ => .error "storage quota exceeded" }

/-- Collaborators that all fail (and cache writes fail too). -/
def failEnv : Env :=
  ⟨fun _ => .error "network unreachable", fun _ => .error "network unreachable",
   fun _ => .error "probe failed", fun _ _ _ => .error "render failed",
   fun _ => .error "upload failed", false⟩

/-- Empty starting filesystem. -/
def emptyFS : FS := ⟨[], []⟩

/-- A filesystem whose cache record for the demo job is corrupt. -/
def corruptFS : FS :=
  ⟨[(cache_path_of "https://v/video.mp4" "hello" "srt"
      (convert_array_to_collection demoOptions), .corrupt)], []⟩

/-! ## Claim C1: staging-file cleanup -/

/-- C1 counterexample: when the upload collaborator fails, the orchestration
call raises AND all three job-scoped staging files (downloaded video,
prepared subtitle file, rendered output) are still present — the claim that
"when upload fails, the staging files are still removed on the failure
path" is false: `os.remove` (lines 292-294) runs only on the success path. -/
theorem c1_counterexample :
    (process_captioning demoFonts uploadFailEnv emptyFS "https://v/video.mp4"
      "hello" "srt" demoOptions "job1").1 = .error (.generic "storage quota exceeded") ∧
    "/tmp/vid.mp4" ∈ (process_captioning demoFonts uploadFailEnv emptyFS
      "https://v/video.mp4" "hello" "srt" demoOptions "job1").2.1.files ∧
    "/tmp/job1.srt" ∈ (process_captioning demoFonts uploadFailEnv emptyFS
      "https://v/video.mp4" "hello" "srt" demoOptions "job1").2.1.files ∧
    "/tmp/job1_captioned.mp4" ∈ (process_captioning demoFonts uploadFailEnv emptyFS
      "https://v/video.mp4" "hello" "srt" demoOptions "job1").2.1.files := by
  refine ⟨by rfl, ?_, ?_, ?_⟩ <;> decide

/-- C1 (amended): staging files are removed only on the success path.  When
the orchestration call returns successfully, no job-scoped staging file
remains (the working set of files equals the initial one); on failure paths
— in particular when upload fails — the staging files are NOT removed (see
the counterexample). -/
theorem c1_cleanup_only_on_success (fp : List (String × String)) (env : Env)
    (fs : FS) (u cs ct : String) (arr : List (String × PyVal)) (j out : String)
    (h : (process_captioning fp env fs u cs ct arr j).1 = .ok out) :
    (process_captioning fp env fs u cs ct arr j).2.1.files = fs.files := by
  have heta : process_captioning fp env fs u cs ct arr j =
      (.ok out, (process_captioning fp env fs u cs ct arr j).2.1,
        (process_captioning fp env fs u cs ct arr j).2.2) := by
    rw [← h]
  exact (process_captioning_ok_inversion heta).2.2.1

/-- Witness for C1 (amended): a fully successful concrete run leaves the
file set unchanged. -/
theorem c1_witness :
    (process_captioning demoFonts okEnv emptyFS "https://v/video.mp4" "hello"
      "srt" demoOptions "job1").1 = .ok "gcs://bucket/out.mp4" ∧
    (process_captioning demoFonts okEnv emptyFS "https://v/video.mp4" "hello"
      "srt" demoOptions "job1").2.1.files = emptyFS.files :=
  ⟨by rfl,
   c1_cleanup_only_on_success demoFonts okEnv emptyFS "https://v/video.mp4"
     "hello" "srt" demoOptions "job1" "gcs://bucket/out.mp4" (by rfl)⟩

/-! ## Claim C7: cache idempotence -/

/-- C7: after any successful orchestration call, a second call with the same
fingerprint inputs (any job id, ANY collaborator environment) returns the
same output reference from the cache with an untouched state and an
all-zero trace: zero downloads, renders and uploads. -/
theorem c7_cache_idempotent (fp : List (String × String)) (env1 env2 : Env)
    (fs fs1 : FS) (u cs ct : String) (arr : List (String × PyVal))
    (j j2 out : String) (tr1 : Trace)
    (h : process_captioning fp env1 fs u cs ct arr j = (.ok out, fs1, tr1)) :
    process_captioning fp env2 fs1 u cs ct arr j2 = (.ok out, fs1, {}) := by
  obtain ⟨hv, hl, -, -⟩ := process_captioning_ok_inversion h
  unfold process_captioning
  simp only []
  rw [hv]
  dsimp only []
  rw [hl]

/-- Witness for C7: after the successful demo run, a second call against an
environment in which EVERY collaborator fails still returns the cached
reference. -/
theorem c7_witness :
    process_captioning demoFonts failEnv
      (process_captioning demoFonts okEnv emptyFS "https://v/video.mp4" "hello"
        "srt" demoOptions "job1").2.1
      "https://v/video.mp4" "hello" "srt" demoOptions "job2" =
    (.ok "gcs://bucket/out.mp4",
      (process_captioning demoFonts okEnv emptyFS "https://v/video.mp4" "hello"
        "srt" demoOptions "job1").2.1, {}) :=
  c7_cache_idempotent demoFonts okEnv failEnv emptyFS
    (process_captioning demoFonts okEnv emptyFS "https://v/video.mp4" "hello"
      "srt" demoOptions "job1").2.1
    "https://v/video.mp4" "hello" "srt" demoOptions "job1" "job2"
    "gcs://bucket/out.mp4"
    (process_captioning demoFonts okEnv emptyFS "https://v/video.mp4" "hello"
      "srt" demoOptions "job1").2.2 (by rfl)

/-! ## Claim C5: cache errors do NOT degrade gracefully -/

set_option maxRecDepth 10000 in
/-- C5 counterexample: with a corrupt cache record at the job's fingerprint
path, the orchestration call aborts with the cache error — the trace shows
zero downloads/renders/uploads, so the pipeline did NOT proceed as a cache
miss, contradicting the claimed graceful degradation. -/
theorem c5_counterexample :
    process_captioning demoFonts okEnv corruptFS "https://v/video.mp4" "hello"
      "srt" demoOptions "job1" =
    (.error (.generic "cache record is not valid JSON"), corruptFS, {}) := by rfl

/-- C5 (amended): cache failures are NOT swallowed.  (1) A corrupt cache
record (a `json.load` failure) aborts the whole orchestration call with the
cache error, filesystem untouched and an all-zero trace — no download,
render or upload happens.  (2) When the cache write fails, an otherwise
fully successful pipeline run still raises: with cache writes failing and
no pre-existing valid record, the call can never return successfully. -/
theorem c5_cache_errors_abort :
    (∀ (fp : List (String × String)) (env : Env) (fs : FS) (u cs ct : String)
      (arr : List (String × PyVal)) (j : String),
      validate_options fp (convert_array_to_collection arr) = .ok () →
      lookupCache fs.cache (cache_path_of u cs ct (convert_array_to_collection arr)) =
        some .corrupt →
      process_captioning fp env fs u cs ct arr j =
        (.error (.generic "cache record is not valid JSON"), fs, {})) ∧
    (∀ (fp : List (String × String)) (env : Env) (fs : FS) (u cs ct : String)
      (arr : List (String × PyVal)) (j : String) (out : String) (fs' : FS) (tr : Trace),
      env.cacheWriteOk = false →
      lookupCache fs.cache (cache_path_of u cs ct (convert_array_to_collection arr)) =
        none →
      process_captioning fp env fs u cs ct arr j ≠ (.ok out, fs', tr)) := by
  constructor
  · intro fp env fs u cs ct arr j hv hl
    unfold process_captioning
    simp only []
    rw [hv]
    dsimp only []
    rw [hl]
  · intro fp env fs u cs ct arr j out fs' tr hw hl h
    rcases (process_captioning_ok_inversion h).2.2.2 with hc | hc
    · rw [hl] at hc
      cases hc
    · rw [hw] at hc
      cases hc

set_option maxRecDepth 10000 in
/-- Witness for C5 (amended), part (1) at the corrupt-record fixture. -/
theorem c5_witness :
    (validate_options demoFonts (convert_array_to_collection demoOptions) = .ok () ∧
      lookupCache corruptFS.cache (cache_path_of "https://v/video.mp4" "hello" "srt"
        (convert_array_to_collection demoOptions)) = some .corrupt) ∧
    process_captioning demoFonts okEnv corruptFS "https://v/video.mp4" "hello"
      "srt" demoOptions "job1" =
    (.error (.generic "cache record is not valid JSON"), corruptFS, {}) :=
  ⟨⟨by rfl, by rfl⟩,
   c5_cache_errors_abort.1 demoFonts okEnv corruptFS "https://v/video.mp4" "hello"
     "srt" demoOptions "job1" (by rfl) (by rfl)⟩

/-! ## Claim C8: validation precedes all collaborator calls -/

/-- C8: an options mapping missing `font_size`, or whose `font_size` is 0 or
not an integer (a string value; note Python treats bools as ints), or whose
`font_name` is not in the installed-font allow-list, makes
`process_captioning` raise a `ValueError` with the filesystem untouched and
an all-zero trace — zero download, render and upload collaborator calls. -/
theorem c8_validation_precedes_collaborators (fp : List (String × String))
    (env : Env) (fs : FS) (u cs ct : String) (arr : List (String × PyVal))
    (j : String)
    (h : dictContains (convert_array_to_collection arr) "font_size" = false ∨
      dictGet? (convert_array_to_collection arr) "font_size" = some (.vInt 0) ∨
      (∃ s, dictGet? (convert_array_to_collection arr) "font_size" = some (.vStr s)) ∨
      pyInStrList (dictGet? (convert_array_to_collection arr) "font_name")
        (acceptableFonts fp) = false) :
    ∃ e, process_captioning fp env fs u cs ct arr j =
      (.error (.validation e), fs, {}) := by
  rcases hv : validate_options fp (convert_array_to_collection arr) with e | v0
  · exact ⟨e, process_captioning_validation_error fp env fs u cs ct arr j e hv⟩
  · exfalso
    obtain ⟨⟩ := v0
    obtain ⟨hc, hin, v, hget, hvi, hvp⟩ := validate_options_ok_facts _ _ hv
    rcases h with h | h | ⟨s, h⟩ | h
    · rw [h] at hc
      cases hc
    · rw [h] at hget
      obtain rfl : PyVal.vInt 0 = v := Option.some.inj hget
      simp [pyIntVal] at hvp
    · rw [h] at hget
      obtain rfl : PyVal.vStr s = v := Option.some.inj hget
      simp [pyIsInt] at hvi
    · rw [h] at hin
      cases hin

/-- Witness for C8 at an options array missing `font_size`. -/
theorem c8_witness :
    (dictContains (convert_array_to_collection
        [("font_name", PyVal.vStr "Arial"), ("primary_color", PyVal.vStr "&H00FFFFFF")])
      "font_size" = false) ∧
    ∃ e, process_captioning demoFonts okEnv emptyFS "https://v/video.mp4" "hello"
      "srt" [("font_name", PyVal.vStr "Arial"), ("primary_color", PyVal.vStr "&H00FFFFFF")]
      "job1" = (.error (.validation e), emptyFS, {}) :=
  ⟨by decide,
   c8_validation_precedes_collaborators demoFonts okEnv emptyFS "https://v/video.mp4"
     "hello" "srt" _ "job1" (Or.inl (by decide))⟩

/-! ## Claim C10: the font-fallback branch is unreachable after validation -/

/-- C10: once `validate_options` has succeeded, the requested font name is a
key of the font catalog, so the fallback branch of the font resolution
(source lines 223-225, which substitutes Arial and logs a warning) is never
taken: the observation trace of any run — whatever the collaborators do —
reports `fontFallback = false`. -/
theorem c10_font_fallback_unreachable (fp : List (String × String)) (env : Env)
    (fs : FS) (u cs ct : String) (arr : List (String × PyVal)) (j : String)
    (h : validate_options fp (convert_array_to_collection arr) = .ok ()) :
    (process_captioning fp env fs u cs ct arr j).2.2.fontFallback = false := by
  obtain ⟨-, hin, -⟩ := validate_options_ok_facts _ _ h
  have hfont : pyValIsFontKey (dictGetD (convert_array_to_collection arr)
      "font_name" (.vStr "Arial")) (acceptableFonts fp) = true := by
    rcases hfn : dictGet? (convert_array_to_collection arr) "font_name" with _ | v
    · rw [hfn] at hin
      cases hin
    · rw [hfn] at hin
      simpa [dictGetD, hfn, pyInStrList] using hin
  unfold process_captioning
  simp only []
  rw [h]
  dsimp only []
  rcases hl : lookupCache fs.cache
      (cache_path_of u cs ct (convert_array_to_collection arr)) with _ | (s | _) <;>
    dsimp only []
  rcases hd : env.download u with e | video_path <;> dsimp only []
  rcases hm : materializeSubtitle env cs ct
      (if ct = "ass" then assHeader (convert_array_to_collection arr) else "")
      (pyTruthy (dictGetD (convert_array_to_collection arr) "one_word_highlight"
        (.vBool false))) with e | sc <;> dsimp only []
  rcases hp : env.probe video_path with e | tf <;> dsimp only []
  · simp [hfont]
  rcases hr : env.render video_path (STORAGE_PATH ++ j ++ "_captioned.mp4")
      (buildSubtitleFilter ct (STORAGE_PATH ++ j ++ "." ++ ct)
        (convert_array_to_collection arr)
        (pyTruthy (dictGetD (convert_array_to_collection arr) "one_word_highlight"
          (.vBool false)))
        (dictGetD (convert_array_to_collection arr) "font_name" (.vStr "Arial")))
      with e | _ <;> dsimp only []
  · simp [hfont]
  rcases hu : env.upload (STORAGE_PATH ++ j ++ "_captioned.mp4") with e | outf <;>
    dsimp only []
  · simp [hfont]
  rcases hw : env.cacheWriteOk with _ | _ <;> simp [hfont]

/-- Witness for C10: the successful demo run resolves Arial directly. -/
theorem c10_witness :
    validate_options demoFonts (convert_array_to_collection demoOptions) = .ok () ∧
    (process_captioning demoFonts okEnv emptyFS "https://v/video.mp4" "hello"
      "srt" demoOptions "job1").2.2.fontFallback = false :=
  ⟨by rfl,
   c10_font_fallback_unreachable demoFonts okEnv emptyFS "https://v/video.mp4"
     "hello" "srt" demoOptions "job1" (by rfl)⟩

/-! ## Claim C4: where the timing expansion is applied -/

/-- C4 counterexample: a job with a remote subtitle reference, dialect srt
and word-highlight requested persists the fetched bytes VERBATIM: the run
succeeds, the content written to the staging path is exactly the fetched
body, and applying `process_subtitle_content` to that body would not even
succeed (it raises) — so the claimed expansion for the srt dialect cannot
have been applied. -/
theorem c4_counterexample :
    (process_captioning demoFonts okEnv emptyFS "https://v/video.mp4"
      "https://cap/pod.srt" "srt" highlightOptions "job4").1 =
        .ok "gcs://bucket/out.mp4" ∧
    (process_captioning demoFonts okEnv emptyFS "https://v/video.mp4"
      "https://cap/pod.srt" "srt" highlightOptions "job4").2.2.srtContent =
        some remoteSrtBody ∧
    process_subtitle_content remoteSrtBody true =
      .error "time data does not match format" := by
  refine ⟨by rfl, by rfl, by rfl⟩

/-- C4 (amended): for a remote subtitle reference with word-highlight
requested, the orchestrator applies `process_subtitle_content` only when the
dialect is neither srt nor vtt (e.g. ass, where the synthesized header is
prepended first); for the srt and vtt dialects the fetched content is
persisted verbatim, with no timing expansion. -/
theorem c4_expansion_skipped_for_srt_vtt (env : Env) (cs ct style : String)
    (owh : Bool) (body : String)
    (hhttps : startsWithHttps cs = true) (hget : env.httpGet cs = .ok body) :
    ((ct = "srt" ∨ ct = "vtt") →
      materializeSubtitle env cs ct style owh = .ok body) ∧
    (ct ≠ "srt" → ct ≠ "vtt" →
      materializeSubtitle env cs ct style owh =
        (match process_subtitle_content (style ++ body) owh with
         | .error e => .error (.validation e)
         | .ok sc => .ok sc)) := by
  constructor
  · intro hct
    simp [materializeSubtitle, hhttps, hget, hct]
  · intro h1 h2
    simp [materializeSubtitle, hhttps, hget, h1, h2]

/-- Witness for C4 (amended) at the demo remote-srt job. -/
theorem c4_witness :
    (startsWithHttps "https://cap/pod.srt" = true ∧
      okEnv.httpGet "https://cap/pod.srt" = .ok remoteSrtBody) ∧
    ((("srt" = "srt" ∨ ("srt" : String) = "vtt") →
      materializeSubtitle okEnv "https://cap/pod.srt" "srt" "" true =
        .ok remoteSrtBody) ∧
    (("srt" : String) ≠ "srt" → ("srt" : String) ≠ "vtt" →
      materializeSubtitle okEnv "https://cap/pod.srt" "srt" "" true =
        (match process_subtitle_content ("" ++ remoteSrtBody) true with
         | .error e => .error (.validation e)
         | .ok sc => .ok sc))) :=
  ⟨⟨by rfl, by rfl⟩,
   c4_expansion_skipped_for_srt_vtt okEnv "https://cap/pod.srt" "srt" "" true
     remoteSrtBody (by rfl) (by rfl)⟩

/-! ## Claim C9: batch ordering -/

/-- One caption job tuple, as the source's usage example builds them
(lines 347-351). -/
structure CaptionJob where
  file_url : String
  caption_srt : String
  caption_type : String
  options : List (String × PyVal)
  job_id : String

/-- `process_captioning_wrapper(args)` (source lines 318-319): unpack one
job tuple and run the single-job orchestration, giving that job's result. -/
def process_captioning_wrapper (fp : List (String × String)) (env : Env) (fs : FS)
    (jb : CaptionJob) : Except PCError String :=
  (process_captioning fp env fs jb.file_url jb.caption_srt jb.caption_type
    jb.options jb.job_id).1

/-- Model of `multiprocessing.Pool.map` over a pure per-job function: a
results table with one slot per input index; workers complete in an
arbitrary `completionOrder`, each writing its own job's result into its own
slot; the table is read back in slot (input) order, never completion
order.  (`multiprocessing` is an external stdlib collaborator; each worker
process evaluates its job from the same starting snapshot.) -/
def poolMap (f : α → β) (jobs : List α) (completionOrder : List Nat) :
    List (Option β) :=
  completionOrder.foldl (fun acc i => acc.set i (jobs[i]?.map f))
    (List.replicate jobs.length none)

/-- `batch_process_captioning(job_list)` (source lines 321-324):
`pool.map(process_captioning_wrapper, job_list)` under the pool model. -/
def batch_process_captioning (fp : List (String × String)) (env : Env) (fs : FS)
    (job_list : List CaptionJob) (completionOrder : List Nat) :
    List (Option (Except PCError String)) :=
  poolMap (process_captioning_wrapper fp env fs) job_list completionOrder

theorem foldl_set_length (v : Nat → Option β) :
    ∀ (order : List Nat) (acc : List (Option β)),
    (order.foldl (fun acc i => acc.set i (v i)) acc).length = acc.length := by
  intro order
  induction order with
  | nil => intro acc; rfl
  | cons i order ih =>
    intro acc
    rw [List.foldl_cons, ih, List.length_set]

theorem foldl_set_stable (v : Nat → Option β) :
    ∀ (order : List Nat) (acc : List (Option β)) (j : Nat),
    acc[j]? = some (v j) →
    (order.foldl (fun acc i => acc.set i (v i)) acc)[j]? = some (v j) := by
  intro order
  induction order with
  | nil => intro acc j h; exact h
  | cons i order ih =>
    intro acc j h
    rw [List.foldl_cons]
    apply ih
    by_cases hij : i = j
    · subst hij
      have hlt : i < acc.length := by
        by_contra hge
        rw [List.getElem?_eq_none (Nat.le_of_not_lt hge)] at h
        cases h
      rw [List.getElem?_set_self hlt]
    · rw [List.getElem?_set_ne hij]
      exact h

theorem foldl_set_fills (v : Nat → Option β) :
    ∀ (order : List Nat) (acc : List (Option β)) (j : Nat),
    j ∈ order → j < acc.length →
    (order.foldl (fun acc i => acc.set i (v i)) acc)[j]? = some (v j) := by
  intro order
  induction order with
  | nil => intro acc j h; cases h
  | cons i order ih =>
    intro acc j hmem hlt
    rw [List.foldl_cons]
    rcases List.mem_cons.mp hmem with rfl | hmem
    · apply foldl_set_stable
      rw [List.getElem?_set_self hlt]
    · exact ih _ j hmem (by rw [List.length_set]; exact hlt)

/-- The pool model is completion-order-independent: for every completion
schedule that is a permutation of the job indices, the collected results
are the input-ordered map of the per-job function — i.e. the batch run is
result-equivalent to sequentially mapping the single-job function. -/
theorem poolMap_eq_map (f : α → β) (jobs : List α) (order : List Nat)
    (hperm : order.Perm (List.range jobs.length)) :
    poolMap f jobs order = (jobs.map f).map some := by
  apply List.ext_getElem?
  intro i
  by_cases hi : i < jobs.length
  · have hmem : i ∈ order := hperm.mem_iff.mpr (List.mem_range.mpr hi)
    have hfill := foldl_set_fills (fun i => jobs[i]?.map f) order
      (List.replicate jobs.length none) i hmem (by simpa using hi)
    rw [poolMap] at *
    rw [hfill]
    simp [List.getElem?_map, List.getElem?_eq_getElem hi]
  · have h1 : (poolMap f jobs order)[i]? = none := by
      apply List.getElem?_eq_none
      rw [poolMap, foldl_set_length, List.length_replicate]
      exact Nat.le_of_not_lt hi
    have h2 : ((jobs.map f).map some)[i]? = none := by
      apply List.getElem?_eq_none
      simpa using Nat.le_of_not_lt hi
    rw [h1, h2]

/-- C9: `batch_process_captioning` returns per-job results in input order
regardless of the order in which workers complete the jobs, and the batch
output is result-equivalent to sequentially mapping the single-job
orchestration over the job list. -/
theorem c9_batch_results_in_input_order (fp : List (String × String)) (env : Env)
    (fs : FS) (job_list : List CaptionJob) (completionOrder : List Nat)
    (hperm : completionOrder.Perm (List.range job_list.length)) :
    batch_process_captioning fp env fs job_list completionOrder =
      (job_list.map (process_captioning_wrapper fp env fs)).map some :=
  poolMap_eq_map _ _ _ hperm

/-- Two concrete jobs for the batch witness. -/
def jobA : CaptionJob := ⟨"https://v/a.mp4", "hello", "srt", demoOptions, "jobA"⟩

def jobB : CaptionJob := ⟨"https://v/b.mp4", "world", "srt", demoOptions, "jobB"⟩

/-- Witness for C9: jobs `[A, B]` with reversed completion order `[1, 0]`
still collect as `[result A, result B]`. -/
theorem c9_witness :
    ([1, 0] : List Nat).Perm (List.range [jobA, jobB].length) ∧
    batch_process_captioning demoFonts okEnv emptyFS [jobA, jobB] [1, 0] =
      ([jobA, jobB].map (process_captioning_wrapper demoFonts okEnv emptyFS)).map
        some :=
  ⟨by decide,
   c9_batch_results_in_input_order demoFonts okEnv emptyFS [jobA, jobB] [1, 0]
     (by decide)⟩
